import Mathlib

/-!
A verification development for the mapGen repository: a shallow embedding of
the tile compositor in `mapgen.py` (class `TileMapRenderer`) and of the
coordinate-transform helpers in `first_tests.py`, together with theorems about
the properties the design document states for them.

Python floats are modelled as real numbers; Python integers as `ℤ`; Python
floor division `//` as `Int.fdiv`; `int()` applied to a float as truncation
toward zero (`pyInt`); an OpenCV image as a list of rows of pixels.
-/

open Real

namespace MapGen

/-- Python's `math.radians`: degrees to radians. -/
noncomputable def radians (d : ℝ) : ℝ := d * Real.pi / 180

/-- Python's `math.degrees`: radians to degrees. -/
noncomputable def degrees (r : ℝ) : ℝ := r * 180 / Real.pi

/-- Python's `int()` applied to a float: truncation toward zero. -/
noncomputable def pyInt (x : ℝ) : ℤ := if 0 ≤ x then ⌊x⌋ else -⌊-x⌋

/-- The latitude clamp on line 22 of `mapgen.py`:
`lat = max(min(lat, 85.05112878), -85.05112878)`. -/
def clampLat (lat : ℝ) : ℝ := max (min lat 85.05112878) (-85.05112878)

/-- The method `TileMapRenderer.latlon_to_tile_fractional` from `mapgen.py` (lines 20-34):
clamp latitude, set `n = 2 ** zoom`, and return the fractional tile pair
`((lon + 180)/360 * n, (1 - log(tan(radians lat) + 1/cos(radians lat))/pi)/2 * n)`. -/
noncomputable def latlon_to_tile_fractional (lat lon : ℝ) (zoom : ℤ) : ℝ × ℝ :=
  let lat2 := clampLat lat
  let n : ℝ := 2 ^ zoom
  ((lon + 180.0) / 360.0 * n,
   (1.0 - Real.log (Real.tan (radians lat2) + 1.0 / Real.cos (radians lat2))
      / Real.pi) / 2.0 * n)

/-- The function `lonlat_to_tile_numbers` from `first_tests.py` (lines 30-43): the same
forward transform, clamping at the slightly tighter constant
`85.05112877980659` and associating the arithmetic slightly differently. -/
noncomputable def lonlat_to_tile_numbers (lon_deg lat_deg : ℝ) (zoom : ℤ) : ℝ × ℝ :=
  let lat2 := max (min lat_deg 85.05112877980659) (-85.05112877980659)
  let n : ℝ := 2 ^ zoom
  let lat_rad := radians lat2
  (n * ((lon_deg + 180.0) / 360.0),
   n * (1 - Real.log (Real.tan lat_rad + 1 / Real.cos lat_rad) / Real.pi) / 2)

/-- The function `tile_numbers_to_lonlat` from `first_tests.py` (lines 46-55): the inverse
transform, `lon = x/n*360 - 180` and `lat = degrees (atan (sinh (pi (1 - 2y/n))))`. -/
noncomputable def tile_numbers_to_lonlat (xtile ytile : ℝ) (zoom : ℤ) : ℝ × ℝ :=
  let n : ℝ := 2 ^ zoom
  let lon_deg := xtile / n * 360.0 - 180.0
  let lat_rad := Real.arctan (Real.sinh (Real.pi * (1 - 2 * ytile / n)))
  (lon_deg, degrees lat_rad)

/-! ### Basic facts about the clamped latitude and its radian form -/

theorem clampLat_le (lat : ℝ) : clampLat lat ≤ 85.05112878 := by
  unfold clampLat
  have h1 : min lat 85.05112878 ≤ 85.05112878 := min_le_right _ _
  have h2 : (-85.05112878 : ℝ) ≤ 85.05112878 := by norm_num
  exact max_le h1 h2

theorem le_clampLat (lat : ℝ) : (-85.05112878 : ℝ) ≤ clampLat lat :=
  le_max_right _ _

theorem clampLat_eq_of_mem (lat : ℝ) (h1 : -85.05112878 ≤ lat)
    (h2 : lat ≤ 85.05112878) : clampLat lat = lat := by
  unfold clampLat
  rw [min_eq_left h2, max_eq_left h1]

/-- Any latitude within the Mercator band, once converted to radians, lies
strictly inside `(-π/2, π/2)`. -/
theorem radians_mem_Ioo {lat : ℝ} (h1 : -85.05112878 ≤ lat)
    (h2 : lat ≤ 85.05112878) :
    radians lat ∈ Set.Ioo (-(Real.pi / 2)) (Real.pi / 2) := by
  have hpi : (0 : ℝ) < Real.pi := Real.pi_pos
  have hl : (0 : ℝ) < lat / 180 + 1 / 2 := by linarith
  have hr : (0 : ℝ) < 1 / 2 - lat / 180 := by linarith
  constructor
  · unfold radians
    nlinarith [mul_pos hpi hl]
  · unfold radians
    nlinarith [mul_pos hpi hr]

theorem cos_radians_pos {lat : ℝ} (h1 : -85.05112878 ≤ lat)
    (h2 : lat ≤ 85.05112878) : 0 < Real.cos (radians lat) :=
  Real.cos_pos_of_mem_Ioo (radians_mem_Ioo h1 h2)

/-- The argument of the logarithm in the forward Mercator formula is positive
whenever the cosine of the angle is positive. -/
theorem merc_log_arg_pos {θ : ℝ} (hc : 0 < Real.cos θ) :
    0 < Real.tan θ + 1.0 / Real.cos θ := by
  have hs : Real.sin θ ^ 2 + Real.cos θ ^ 2 = 1 := Real.sin_sq_add_cos_sq θ
  have hsin : -1 < Real.sin θ := by nlinarith [sq_nonneg (Real.sin θ + 1)]
  have : Real.tan θ + 1.0 / Real.cos θ = (Real.sin θ + 1) / Real.cos θ := by
    rw [Real.tan_eq_sin_div_cos]
    field_simp
    norm_num
  rw [this]
  exact div_pos (by linarith) hc

/-- Claim C8: for every latitude (including values outside the Mercator band
and exactly ±85.05112878), every longitude and every zoom, the forward
transform factors through the latitude clamp (clamping happens strictly before
the trigonometric calls), and the argument of the logarithm — evaluated at the
clamped latitude — is strictly positive, so no domain error can occur and the
function is total. -/
theorem C8_clamp_before_trig_and_log_arg_pos (lat lon : ℝ) (zoom : ℤ) :
    0 < Real.tan (radians (clampLat lat)) + 1.0 / Real.cos (radians (clampLat lat)) ∧
    latlon_to_tile_fractional lat lon zoom =
      latlon_to_tile_fractional (clampLat lat) lon zoom := by
  constructor
  · exact merc_log_arg_pos (cos_radians_pos (le_clampLat lat) (clampLat_le lat))
  · unfold latlon_to_tile_fractional
    rw [clampLat_eq_of_mem (clampLat lat) (le_clampLat lat) (clampLat_le lat)]

/-- Claim C9: shifting longitude by `delta` shifts the fractional tile x
coordinate by exactly `2^zoom * delta / 360`, at any latitude: the shift is
the same at `lat1` and at `lat2`. -/
theorem C9_lon_shift_proportional (zoom : ℤ) (lat1 lat2 lon delta : ℝ) :
    (latlon_to_tile_fractional lat1 (lon + delta) zoom).1 -
        (latlon_to_tile_fractional lat1 lon zoom).1 = 2 ^ zoom * delta / 360 ∧
    (latlon_to_tile_fractional lat2 (lon + delta) zoom).1 -
        (latlon_to_tile_fractional lat2 lon zoom).1 = 2 ^ zoom * delta / 360 := by
  unfold latlon_to_tile_fractional
  constructor <;> · dsimp only; ring

/-- Claim C10: on the band where the tighter clamp of `first_tests.py` is the
identity, the two forward-transform implementations agree exactly. -/
theorem C10_two_forward_transforms_agree (lat lon : ℝ) (zoom : ℤ)
    (h1 : -85.05112877980659 ≤ lat) (h2 : lat ≤ 85.05112877980659) :
    latlon_to_tile_fractional lat lon zoom = lonlat_to_tile_numbers lon lat zoom := by
  unfold latlon_to_tile_fractional lonlat_to_tile_numbers
  rw [clampLat_eq_of_mem lat (by linarith) (by linarith),
    min_eq_left h2, max_eq_left h1]
  dsimp only
  simp only [Prod.mk.injEq]
  refine ⟨by ring, ?_⟩
  rw [show (1.0 : ℝ) = 1 by norm_num, show (2.0 : ℝ) = 2 by norm_num]
  ring

/-- Witness for C10 at the concrete point `lat = 0, lon = 0, zoom = 0`. -/
theorem C10_two_forward_transforms_agree_witness :
    latlon_to_tile_fractional 0 0 0 = lonlat_to_tile_numbers 0 0 0 :=
  C10_two_forward_transforms_agree 0 0 0 (by norm_num) (by norm_num)

/-! ### The round trip of the transform pair in `first_tests.py` -/

theorem clamp_mem (c lat : ℝ) (hc : 0 ≤ c) :
    -c ≤ max (min lat c) (-c) ∧ max (min lat c) (-c) ≤ c :=
  ⟨le_max_right _ _, max_le (min_le_right _ _) (by linarith)⟩

theorem clamp_eq_of_mem {c lat : ℝ} (h1 : -c ≤ lat) (h2 : lat ≤ c) :
    max (min lat c) (-c) = lat := by rw [min_eq_left h2, max_eq_left h1]

/-- Clamping to `[-c, c]` moves a value of `[-d, d]` (with `c ≤ d`) by at
most `d - c`. -/
theorem clamp_dist (c d lat : ℝ) (hc : 0 ≤ c) (hcd : c ≤ d) (h1 : -d ≤ lat) (h2 : lat ≤ d) :
    |max (min lat c) (-c) - lat| ≤ d - c := by
  rcases le_total lat c with h | h
  · rcases le_total (-c) lat with h' | h'
    · rw [clamp_eq_of_mem h' h, sub_self, abs_zero]; linarith
    · rw [min_eq_left h, max_eq_right h', abs_of_nonneg (by linarith)]; linarith
  · rw [min_eq_right h, max_eq_left (by linarith), abs_of_nonpos (by linarith)]
    linarith

theorem sqrt_one_add_tan_sq {θ : ℝ} (hc : 0 < Real.cos θ) :
    Real.sqrt (1 + Real.tan θ ^ 2) = 1 / Real.cos θ := by
  have h := Real.inv_one_add_tan_sq hc.ne'
  have h2 : 1 + Real.tan θ ^ 2 = ((Real.cos θ)⁻¹) ^ 2 := by
    rw [inv_pow, ← h, inv_inv]
  rw [h2, Real.sqrt_sq (by positivity), one_div]

/-- The logarithmic term of the forward Mercator formula is the inverse
hyperbolic sine of the tangent. -/
theorem log_merc_eq_arsinh {θ : ℝ} (hc : 0 < Real.cos θ) :
    Real.log (Real.tan θ + 1 / Real.cos θ) = Real.arsinh (Real.tan θ) := by
  unfold Real.arsinh
  rw [← sqrt_one_add_tan_sq hc]

/-- On the band where the clamp of `lonlat_to_tile_numbers` is the identity,
the round trip through `tile_numbers_to_lonlat` is exact. -/
theorem round_trip_exact (lon lat : ℝ) (zoom : ℤ)
    (h1 : -85.05112877980659 ≤ lat) (h2 : lat ≤ 85.05112877980659) :
    tile_numbers_to_lonlat (lonlat_to_tile_numbers lon lat zoom).1
      (lonlat_to_tile_numbers lon lat zoom).2 zoom = (lon, lat) := by
  have hn : (0 : ℝ) < (2 : ℝ) ^ zoom := zpow_pos (by norm_num) zoom
  have hpi : (0 : ℝ) < Real.pi := Real.pi_pos
  have hb1 : -85.05112878 ≤ lat := by linarith
  have hb2 : lat ≤ 85.05112878 := by linarith
  have hcos : 0 < Real.cos (radians lat) := cos_radians_pos hb1 hb2
  have hIoo := radians_mem_Ioo hb1 hb2
  simp only [lonlat_to_tile_numbers, tile_numbers_to_lonlat,
    clamp_eq_of_mem h1 h2, Prod.mk.injEq]
  constructor
  · field_simp
    ring
  · rw [show Real.pi * (1 - 2 * ((2 : ℝ) ^ zoom *
        (1 - Real.log (Real.tan (radians lat) + 1 / Real.cos (radians lat)) /
          Real.pi) / 2) / (2 : ℝ) ^ zoom) =
        Real.log (Real.tan (radians lat) + 1 / Real.cos (radians lat)) by
          field_simp
          ring]
    rw [log_merc_eq_arsinh hcos, Real.sinh_arsinh,
      Real.arctan_tan hIoo.1 hIoo.2]
    unfold degrees radians
    field_simp

/-- Replacing the latitude by its clamped value does not change the output of
`lonlat_to_tile_numbers`. -/
theorem lonlat_clamp_invariant (lon lat : ℝ) (zoom : ℤ) :
    lonlat_to_tile_numbers lon
        (max (min lat 85.05112877980659) (-85.05112877980659)) zoom =
      lonlat_to_tile_numbers lon lat zoom := by
  have hm := clamp_mem 85.05112877980659 lat (by norm_num)
  simp only [lonlat_to_tile_numbers]
  rw [clamp_eq_of_mem hm.1 hm.2]

/-- Claim C4: for any point whose latitude lies in
`[-85.05112878, 85.05112878]` and any zoom in `[0, 20]`, converting to
fractional tile numbers and back reproduces the longitude and the latitude to
within `1e-6` degrees. -/
theorem C4_round_trip (lat lon : ℝ) (zoom : ℤ)
    (h1 : -85.05112878 ≤ lat) (h2 : lat ≤ 85.05112878)
    (hz1 : 0 ≤ zoom) (hz2 : zoom ≤ 20) :
    |(tile_numbers_to_lonlat (lonlat_to_tile_numbers lon lat zoom).1
        (lonlat_to_tile_numbers lon lat zoom).2 zoom).1 - lon| ≤ 1e-6 ∧
    |(tile_numbers_to_lonlat (lonlat_to_tile_numbers lon lat zoom).1
        (lonlat_to_tile_numbers lon lat zoom).2 zoom).2 - lat| ≤ 1e-6 := by
  have hm := clamp_mem 85.05112877980659 lat (by norm_num)
  have hrt := round_trip_exact lon
    (max (min lat 85.05112877980659) (-85.05112877980659)) zoom hm.1 hm.2
  rw [lonlat_clamp_invariant] at hrt
  rw [hrt]
  refine ⟨?_, ?_⟩
  · dsimp only
    rw [sub_self, abs_zero]
    norm_num
  · dsimp only
    refine le_trans (clamp_dist 85.05112877980659 85.05112878 lat
      (by norm_num) (by norm_num) h1 h2) ?_
    norm_num

/-- Witness for C4 at `lat = 0, lon = 0, zoom = 0`. -/
theorem C4_round_trip_witness :
    |(tile_numbers_to_lonlat (lonlat_to_tile_numbers 0 0 0).1
        (lonlat_to_tile_numbers 0 0 0).2 0).1 - 0| ≤ 1e-6 ∧
    |(tile_numbers_to_lonlat (lonlat_to_tile_numbers 0 0 0).1
        (lonlat_to_tile_numbers 0 0 0).2 0).2 - 0| ≤ 1e-6 :=
  C4_round_trip 0 0 0 (by norm_num) (by norm_num) (by norm_num) (by norm_num)

/-! ### The tile compositor of `mapgen.py`

An OpenCV image (a NumPy array of shape `(rows, cols, 3)`) is modelled as a
list of rows, each row a list of BGR pixels. A tile is a 256×256 pixel
source, modelled as a function from (row, column) to pixel. The tile store
(the `z/x/y.png` hierarchy together with `cv2.imread`) is modelled by two
capabilities: whether the file for an address exists (`os.path.exists`) and
what `cv2.imread` returns for it — `none` models a read that produces no
image, which is what `cv2.imread` yields both for unreadable and for corrupt
files. -/

/-- The constant `TileMapRenderer.TILE_SIZE`. -/
def TILE_SIZE : ℤ := 256

abbrev Pixel := ℕ × ℕ × ℕ

/-- The zero-initialized pixel of `np.zeros`. -/
def zeroPixel : Pixel := (0, 0, 0)

abbrev Tile := ℕ → ℕ → Pixel

abbrev Image := List (List Pixel)

structure TileStore where
  fileExists : ℤ → ℤ → ℤ → Bool
  imread : ℤ → ℤ → ℤ → Option Tile

/-- The method `TileMapRenderer._load_tile`: absent file yields `None`; otherwise the
result of `cv2.imread` is returned as-is (which is again `None` when the file
cannot be decoded). -/
def load_tile (s : TileStore) (z x y : ℤ) : Option Tile :=
  if s.fileExists z x y then s.imread z x y else none

/-- A store with no tiles at all. -/
def emptyStore : TileStore := ⟨fun _ _ _ => false, fun _ _ _ => none⟩

/-- A store in which every tile file exists but none can be decoded. -/
def corruptStore : TileStore := ⟨fun _ _ _ => true, fun _ _ _ => none⟩

/-- Failure conditions. `negativeDims` models the `ValueError` NumPy raises
when `np.zeros` is given a negative dimension; `invalidArgument` and
`tileReadError` are the conditions named by the design document — the code
never produces them, and the theorems below make that precise. -/
inductive RenderError where
  | invalidArgument
  | tileReadError (z x y : ℤ)
  | negativeDims
deriving DecidableEq

/-- The `np.zeros((h, w, 3), dtype=np.uint8)` canvas. -/
def mkCanvas (h w : ℕ) : Image := List.replicate h (List.replicate w zeroPixel)

/-- The block assignment `canvas[cy:cy+256, cx:cx+256] = tile`. -/
def placeTile (canvas : Image) (cy cx : ℕ) (tile : Tile) : Image :=
  List.mapIdx (fun r row =>
    if cy ≤ r ∧ r < cy + 256 then
      List.mapIdx (fun c p =>
        if cx ≤ c ∧ c < cx + 256 then tile (r - cy) (c - cx) else p) row
    else row) canvas

/-- The two nested loops of `render` (lines 99-111 of `mapgen.py`): for each
tile index in the covering range, load the tile; skip it when the load gives
nothing, else copy its block into the canvas at
`((ty - tile_y_min)*256, (tx - tile_x_min)*256)`. -/
def placeTiles (store : TileStore) (zoom tile_x_min tile_y_min : ℤ)
    (tiles_w tiles_h : ℕ) (canvas : Image) : Image :=
  (List.range tiles_w).foldl (fun cv (i : ℕ) =>
    (List.range tiles_h).foldl (fun cv (j : ℕ) =>
      match load_tile store zoom (tile_x_min + (i : ℤ)) (tile_y_min + (j : ℤ)) with
      | none => cv
      | some tile => placeTile cv (j * 256) (i * 256) tile) cv) canvas

/-- The crop `canvas[y:y+h, x:x+w]` (NumPy slicing with non-negative bounds:
out-of-range parts are clipped, never an error). -/
def cropImage (canvas : Image) (y x h w : ℕ) : Image :=
  ((canvas.drop y).take h).map fun row => (row.drop x).take w

/-- The integer quantities `render` derives from the center pixel position
and the requested size (lines 74-96 and 114-115 of `mapgen.py`). Python's
`//` is floor division (`Int.fdiv`); `int()` truncates toward zero. -/
structure Viewport where
  min_px_x : ℤ
  min_px_y : ℤ
  max_px_x : ℤ
  max_px_y : ℤ
  tile_x_min : ℤ
  tile_y_min : ℤ
  tile_x_max : ℤ
  tile_y_max : ℤ
  tiles_w : ℤ
  tiles_h : ℤ
  crop_x : ℤ
  crop_y : ℤ

noncomputable def mkViewport (center_px_x center_px_y : ℝ) (width height : ℤ) :
    Viewport :=
  let half_w := width.fdiv 2
  let half_h := height.fdiv 2
  let min_px_x := pyInt (center_px_x - (half_w : ℝ))
  let min_px_y := pyInt (center_px_y - (half_h : ℝ))
  let max_px_x := min_px_x + width
  let max_px_y := min_px_y + height
  let tile_x_min := min_px_x.fdiv TILE_SIZE
  let tile_y_min := min_px_y.fdiv TILE_SIZE
  let tile_x_max := (max_px_x - 1).fdiv TILE_SIZE
  let tile_y_max := (max_px_y - 1).fdiv TILE_SIZE
  { min_px_x := min_px_x
    min_px_y := min_px_y
    max_px_x := max_px_x
    max_px_y := max_px_y
    tile_x_min := tile_x_min
    tile_y_min := tile_y_min
    tile_x_max := tile_x_max
    tile_y_max := tile_y_max
    tiles_w := tile_x_max - tile_x_min + 1
    tiles_h := tile_y_max - tile_y_min + 1
    crop_x := min_px_x - tile_x_min * TILE_SIZE
    crop_y := min_px_y - tile_y_min * TILE_SIZE }

/-- The viewport `render` computes: the center's fractional tile coordinates
scaled by `TILE_SIZE`, then the integer window. -/
noncomputable def renderViewport (center_lat center_lon : ℝ) (zoom : ℤ)
    (width height : ℤ) : Viewport :=
  mkViewport ((latlon_to_tile_fractional center_lat center_lon zoom).1 * (TILE_SIZE : ℝ))
    ((latlon_to_tile_fractional center_lat center_lon zoom).2 * (TILE_SIZE : ℝ))
    width height

/-- Canvas allocation, tile placement and final crop, given the viewport. -/
def composite (store : TileStore) (zoom : ℤ) (v : Viewport) (width height : ℤ) :
    Except RenderError Image :=
  if v.tiles_w < 0 ∨ v.tiles_h < 0 then .error .negativeDims
  else
    .ok (cropImage
      (placeTiles store zoom v.tile_x_min v.tile_y_min v.tiles_w.toNat
        v.tiles_h.toNat
        (mkCanvas (v.tiles_h.toNat * 256) (v.tiles_w.toNat * 256)))
      v.crop_y.toNat v.crop_x.toNat height.toNat width.toNat)

/-- The method `TileMapRenderer.render` (lines 54-122 of `mapgen.py`). -/
noncomputable def render (store : TileStore) (center_lat center_lon : ℝ)
    (zoom width height : ℤ) : Except RenderError Image :=
  composite store zoom (renderViewport center_lat center_lon zoom width height)
    width height

/-! ### Arithmetic of the pixel window and the crop offsets -/

/-- Truncation toward zero is the floor for non-negative arguments and the
ceiling for negative ones — not the floor throughout. -/
theorem pyInt_eq (x : ℝ) : pyInt x = if 0 ≤ x then ⌊x⌋ else ⌈x⌉ := by
  unfold pyInt
  rcases le_or_lt 0 x with h | h
  · rw [if_pos h, if_pos h]
  · rw [if_neg (not_le.mpr h), if_neg (not_le.mpr h), Int.floor_neg, neg_neg]

/-- Per-axis facts about the window `[m, m + w)` and the covering tile range
`[m.fdiv 256, (m + w - 1).fdiv 256]`: the crop offset is in `[0, 256)`, the
window fits inside the covering tiles, and the range is non-empty whenever
`w ≥ 1`. -/
theorem axis_bounds (m w : ℤ) :
    0 ≤ m - m.fdiv 256 * 256 ∧ m - m.fdiv 256 * 256 < 256 ∧
    (m - m.fdiv 256 * 256) + w ≤ ((m + w - 1).fdiv 256 - m.fdiv 256 + 1) * 256 ∧
    (1 ≤ w → 1 ≤ (m + w - 1).fdiv 256 - m.fdiv 256 + 1) := by
  have h256 : (0 : ℤ) < 256 := by norm_num
  rw [Int.fdiv_eq_ediv _ (by norm_num : (0:ℤ) ≤ 256),
    Int.fdiv_eq_ediv _ (by norm_num : (0:ℤ) ≤ 256)]
  refine ⟨?_, ?_, ?_, ?_⟩
  · have h := Int.emod_nonneg m (by norm_num : (256:ℤ) ≠ 0)
    rw [Int.emod_def] at h
    linarith
  · have h := Int.emod_lt_of_pos m h256
    rw [Int.emod_def] at h
    linarith
  · have h := Int.lt_ediv_add_one_mul_self (m + w - 1) h256
    linarith
  · intro hw
    have h := Int.ediv_le_ediv h256 (show m ≤ m + w - 1 by linarith)
    linarith

/-- All the §4.3 invariants for a viewport built from any center pixel
position: crop offsets in `[0, 256)`, the crop rectangle contained in the
tile-aligned canvas, and at least one tile per axis for positive sizes. -/
theorem mkViewport_facts (cpx cpy : ℝ) (w h : ℤ) :
    0 ≤ (mkViewport cpx cpy w h).crop_x ∧ (mkViewport cpx cpy w h).crop_x < 256 ∧
    0 ≤ (mkViewport cpx cpy w h).crop_y ∧ (mkViewport cpx cpy w h).crop_y < 256 ∧
    (mkViewport cpx cpy w h).crop_x + w ≤ (mkViewport cpx cpy w h).tiles_w * 256 ∧
    (mkViewport cpx cpy w h).crop_y + h ≤ (mkViewport cpx cpy w h).tiles_h * 256 ∧
    (1 ≤ w → 1 ≤ (mkViewport cpx cpy w h).tiles_w) ∧
    (1 ≤ h → 1 ≤ (mkViewport cpx cpy w h).tiles_h) := by
  obtain ⟨a1, a2, a3, a4⟩ := axis_bounds (mkViewport cpx cpy w h).min_px_x w
  obtain ⟨b1, b2, b3, b4⟩ := axis_bounds (mkViewport cpx cpy w h).min_px_y h
  exact ⟨a1, a2, b1, b2, a3, b3, a4, b4⟩

/-- Claim C7: the pixel window has extent exactly `width` (resp. `height`),
and its minimum is the truncation toward zero — floor for non-negative,
ceiling for negative center pixel positions — of `center_px - width // 2`. -/
theorem C7_pixel_window_truncation (cpx cpy : ℝ) (w h : ℤ)
    (hw : 0 < w) (hh : 0 < h) :
    (mkViewport cpx cpy w h).max_px_x - (mkViewport cpx cpy w h).min_px_x = w ∧
    (mkViewport cpx cpy w h).max_px_y - (mkViewport cpx cpy w h).min_px_y = h ∧
    (mkViewport cpx cpy w h).min_px_x =
      (if 0 ≤ cpx - ((w.fdiv 2 : ℤ) : ℝ) then ⌊cpx - ((w.fdiv 2 : ℤ) : ℝ)⌋
       else ⌈cpx - ((w.fdiv 2 : ℤ) : ℝ)⌉) ∧
    (mkViewport cpx cpy w h).min_px_y =
      (if 0 ≤ cpy - ((h.fdiv 2 : ℤ) : ℝ) then ⌊cpy - ((h.fdiv 2 : ℤ) : ℝ)⌋
       else ⌈cpy - ((h.fdiv 2 : ℤ) : ℝ)⌉) := by
  refine ⟨?_, ?_, pyInt_eq _, pyInt_eq _⟩
  · simp only [mkViewport]
    ring
  · simp only [mkViewport]
    ring

/-- The §4.3 invariants, instantiated to the viewport `render` computes. -/
theorem renderViewport_facts (lat lon : ℝ) (zoom w h : ℤ) :
    0 ≤ (renderViewport lat lon zoom w h).crop_x ∧
    (renderViewport lat lon zoom w h).crop_x < 256 ∧
    0 ≤ (renderViewport lat lon zoom w h).crop_y ∧
    (renderViewport lat lon zoom w h).crop_y < 256 ∧
    (renderViewport lat lon zoom w h).crop_x + w ≤
      (renderViewport lat lon zoom w h).tiles_w * 256 ∧
    (renderViewport lat lon zoom w h).crop_y + h ≤
      (renderViewport lat lon zoom w h).tiles_h * 256 ∧
    (1 ≤ w → 1 ≤ (renderViewport lat lon zoom w h).tiles_w) ∧
    (1 ≤ h → 1 ≤ (renderViewport lat lon zoom w h).tiles_h) :=
  mkViewport_facts
    ((latlon_to_tile_fractional lat lon zoom).1 * (TILE_SIZE : ℝ))
    ((latlon_to_tile_fractional lat lon zoom).2 * (TILE_SIZE : ℝ)) w h

/-- Claim C2: in the viewport computed by `render`, the tile range and crop
offsets follow the floor-division formulas, the crop offsets lie in
`[0, 256)`, and the crop rectangle is contained in the
`(tiles_h*256) × (tiles_w*256)` canvas. -/
theorem C2_crop_invariants (lat lon : ℝ) (zoom w h : ℤ) (hw : 0 < w) (hh : 0 < h) :
    (renderViewport lat lon zoom w h).tile_x_min =
      (renderViewport lat lon zoom w h).min_px_x.fdiv 256 ∧
    (renderViewport lat lon zoom w h).tile_x_max =
      ((renderViewport lat lon zoom w h).max_px_x - 1).fdiv 256 ∧
    (renderViewport lat lon zoom w h).tile_y_min =
      (renderViewport lat lon zoom w h).min_px_y.fdiv 256 ∧
    (renderViewport lat lon zoom w h).tile_y_max =
      ((renderViewport lat lon zoom w h).max_px_y - 1).fdiv 256 ∧
    (renderViewport lat lon zoom w h).crop_x =
      (renderViewport lat lon zoom w h).min_px_x -
        (renderViewport lat lon zoom w h).tile_x_min * 256 ∧
    (renderViewport lat lon zoom w h).crop_y =
      (renderViewport lat lon zoom w h).min_px_y -
        (renderViewport lat lon zoom w h).tile_y_min * 256 ∧
    0 ≤ (renderViewport lat lon zoom w h).crop_x ∧
    (renderViewport lat lon zoom w h).crop_x < 256 ∧
    0 ≤ (renderViewport lat lon zoom w h).crop_y ∧
    (renderViewport lat lon zoom w h).crop_y < 256 ∧
    (renderViewport lat lon zoom w h).crop_x + w ≤
      (renderViewport lat lon zoom w h).tiles_w * 256 ∧
    (renderViewport lat lon zoom w h).crop_y + h ≤
      (renderViewport lat lon zoom w h).tiles_h * 256 := by
  obtain ⟨a1, a2, b1, b2, hw1, hh1, _, _⟩ := renderViewport_facts lat lon zoom w h
  exact ⟨rfl, rfl, rfl, rfl, rfl, rfl, a1, a2, b1, b2, hw1, hh1⟩

/-- Witness for C7 at `cpx = -1/2, cpy = 0, w = h = 1`. -/
theorem C7_pixel_window_truncation_witness :
    (mkViewport (-(1/2)) 0 1 1).max_px_x - (mkViewport (-(1/2)) 0 1 1).min_px_x = 1 ∧
    (mkViewport (-(1/2)) 0 1 1).max_px_y - (mkViewport (-(1/2)) 0 1 1).min_px_y = 1 ∧
    (mkViewport (-(1/2)) 0 1 1).min_px_x =
      (if 0 ≤ (-(1/2) : ℝ) - (((1:ℤ).fdiv 2 : ℤ) : ℝ) then ⌊(-(1/2) : ℝ) - (((1:ℤ).fdiv 2 : ℤ) : ℝ)⌋
       else ⌈(-(1/2) : ℝ) - (((1:ℤ).fdiv 2 : ℤ) : ℝ)⌉) ∧
    (mkViewport (-(1/2)) 0 1 1).min_px_y =
      (if 0 ≤ (0 : ℝ) - (((1:ℤ).fdiv 2 : ℤ) : ℝ) then ⌊(0 : ℝ) - (((1:ℤ).fdiv 2 : ℤ) : ℝ)⌋
       else ⌈(0 : ℝ) - (((1:ℤ).fdiv 2 : ℤ) : ℝ)⌉) :=
  C7_pixel_window_truncation (-(1/2)) 0 1 1 (by norm_num) (by norm_num)

/-- Witness for C2 at `lat = 0, lon = 0, zoom = 0, w = h = 1`. -/
theorem C2_crop_invariants_witness :
    (renderViewport 0 0 0 1 1).tile_x_min =
      (renderViewport 0 0 0 1 1).min_px_x.fdiv 256 ∧
    (renderViewport 0 0 0 1 1).tile_x_max =
      ((renderViewport 0 0 0 1 1).max_px_x - 1).fdiv 256 ∧
    (renderViewport 0 0 0 1 1).tile_y_min =
      (renderViewport 0 0 0 1 1).min_px_y.fdiv 256 ∧
    (renderViewport 0 0 0 1 1).tile_y_max =
      ((renderViewport 0 0 0 1 1).max_px_y - 1).fdiv 256 ∧
    (renderViewport 0 0 0 1 1).crop_x =
      (renderViewport 0 0 0 1 1).min_px_x -
        (renderViewport 0 0 0 1 1).tile_x_min * 256 ∧
    (renderViewport 0 0 0 1 1).crop_y =
      (renderViewport 0 0 0 1 1).min_px_y -
        (renderViewport 0 0 0 1 1).tile_y_min * 256 ∧
    0 ≤ (renderViewport 0 0 0 1 1).crop_x ∧
    (renderViewport 0 0 0 1 1).crop_x < 256 ∧
    0 ≤ (renderViewport 0 0 0 1 1).crop_y ∧
    (renderViewport 0 0 0 1 1).crop_y < 256 ∧
    (renderViewport 0 0 0 1 1).crop_x + 1 ≤
      (renderViewport 0 0 0 1 1).tiles_w * 256 ∧
    (renderViewport 0 0 0 1 1).crop_y + 1 ≤
      (renderViewport 0 0 0 1 1).tiles_h * 256 :=
  C2_crop_invariants 0 0 0 1 1 (by norm_num) (by norm_num)

/-! ### Shape of the canvas through placement and cropping -/

/-- An image has `r` rows of `c` pixels each. -/
def imageShape (img : Image) (r c : ℕ) : Prop :=
  img.length = r ∧ ∀ row ∈ img, row.length = c

theorem imageShape_mkCanvas (r c : ℕ) : imageShape (mkCanvas r c) r c := by
  refine ⟨by simp [mkCanvas], ?_⟩
  intro row hrow
  rw [List.eq_of_mem_replicate hrow]
  simp

theorem imageShape_placeTile (cv : Image) (cy cx : ℕ) (tile : Tile) (r c : ℕ)
    (hs : imageShape cv r c) : imageShape (placeTile cv cy cx tile) r c := by
  obtain ⟨h1, h2⟩ := hs
  refine ⟨by simpa [placeTile, List.length_mapIdx] using h1, ?_⟩
  intro row hrow
  rw [List.mem_iff_getElem] at hrow
  obtain ⟨i, hi, heq⟩ := hrow
  rw [← heq]
  have hi' : i < cv.length := by
    simpa [placeTile, List.length_mapIdx] using hi
  simp only [placeTile]
  rw [List.getElem_mapIdx]
  split
  · rw [List.length_mapIdx]
    exact h2 _ (List.getElem_mem hi')
  · exact h2 _ (List.getElem_mem hi')

/-- A property preserved by every step of a `foldl` is preserved by the fold. -/
theorem foldl_preserves {α : Type} (P : Image → Prop) (f : Image → α → Image)
    (hf : ∀ cv a, P cv → P (f cv a)) :
    ∀ (l : List α) (cv : Image), P cv → P (l.foldl f cv) := by
  intro l
  induction l with
  | nil => exact fun cv hcv => hcv
  | cons a t ih => exact fun cv hcv => ih _ (hf _ _ hcv)

theorem imageShape_placeTiles (store : TileStore) (zoom xmin ymin : ℤ)
    (tw th : ℕ) (cv : Image) (r c : ℕ) (hs : imageShape cv r c) :
    imageShape (placeTiles store zoom xmin ymin tw th cv) r c := by
  unfold placeTiles
  refine foldl_preserves (imageShape · r c) _ ?_ _ _ hs
  intro cv2 i hcv2
  refine foldl_preserves (imageShape · r c) _ ?_ _ _ hcv2
  intro cv3 j hcv3
  cases hload : load_tile store zoom (xmin + (i : ℤ)) (ymin + (j : ℤ)) with
  | none => simpa [hload] using hcv3
  | some tile => simpa [hload] using imageShape_placeTile cv3 _ _ tile r c hcv3

theorem imageShape_cropImage (canvas : Image) (y x h w r c : ℕ)
    (hs : imageShape canvas r c) (hy : y + h ≤ r) (hx : x + w ≤ c) :
    imageShape (cropImage canvas y x h w) h w := by
  obtain ⟨h1, h2⟩ := hs
  constructor
  · rw [cropImage, List.length_map, List.length_take, List.length_drop, h1]
    omega
  · intro row hrow
    rw [cropImage, List.mem_map] at hrow
    obtain ⟨row0, hmem, rfl⟩ := hrow
    have hmem0 : row0 ∈ canvas :=
      List.mem_of_mem_drop (List.mem_of_mem_take hmem)
    rw [List.length_take, List.length_drop, h2 row0 hmem0]
    omega

/-- When every load yields nothing, the placement loops leave the canvas
untouched. -/
theorem placeTiles_of_absent (store : TileStore) (zoom xmin ymin : ℤ)
    (tw th : ℕ) (cv : Image)
    (hload : ∀ z x y, load_tile store z x y = none) :
    placeTiles store zoom xmin ymin tw th cv = cv := by
  unfold placeTiles
  simp only [hload, List.foldl_fixed]

/-- Shape of the output of `composite`, for any viewport satisfying the §4.3
invariants. -/
theorem composite_shape (store : TileStore) (zoom : ℤ) (v : Viewport) (w h : ℤ)
    (hcx0 : 0 ≤ v.crop_x) (hcy0 : 0 ≤ v.crop_y)
    (hcx : v.crop_x + w ≤ v.tiles_w * 256) (hcy : v.crop_y + h ≤ v.tiles_h * 256)
    (htw : 1 ≤ v.tiles_w) (hth : 1 ≤ v.tiles_h) (hw : 0 < w) (hh : 0 < h) :
    ∃ img, composite store zoom v w h = Except.ok img ∧
      img.length = h.toNat ∧ ∀ row ∈ img, row.length = w.toNat := by
  have hcond : ¬(v.tiles_w < 0 ∨ v.tiles_h < 0) := by omega
  have hshape := imageShape_cropImage
    (placeTiles store zoom v.tile_x_min v.tile_y_min v.tiles_w.toNat
      v.tiles_h.toNat (mkCanvas (v.tiles_h.toNat * 256) (v.tiles_w.toNat * 256)))
    v.crop_y.toNat v.crop_x.toNat h.toNat w.toNat
    (v.tiles_h.toNat * 256) (v.tiles_w.toNat * 256)
    (imageShape_placeTiles store zoom v.tile_x_min v.tile_y_min v.tiles_w.toNat
      v.tiles_h.toNat _ _ _ (imageShape_mkCanvas _ _))
    (by omega) (by omega)
  refine ⟨_, ?_, hshape.1, hshape.2⟩
  unfold composite
  rw [if_neg hcond]

/-- Claim C1: for any store, center, non-negative zoom and positive size,
`render` succeeds and its image has exactly `height` rows of exactly `width`
pixels each. -/
theorem C1_output_size (store : TileStore) (lat lon : ℝ) (zoom w h : ℤ)
    (hz : 0 ≤ zoom) (hw : 0 < w) (hh : 0 < h) :
    ∃ img, render store lat lon zoom w h = Except.ok img ∧
      img.length = h.toNat ∧ ∀ row ∈ img, row.length = w.toNat := by
  obtain ⟨a1, a2, b1, b2, hcx, hcy, tw1, th1⟩ := renderViewport_facts lat lon zoom w h
  exact composite_shape store zoom (renderViewport lat lon zoom w h) w h
    a1 b1 hcx hcy (tw1 (by omega)) (th1 (by omega)) hw hh

/-- Witness for C1 at `lat = 0, lon = 0, zoom = 0, w = h = 1` over the empty
store. -/
theorem C1_output_size_witness :
    ∃ img, render emptyStore 0 0 0 1 1 = Except.ok img ∧
      img.length = (1 : ℤ).toNat ∧ ∀ row ∈ img, row.length = (1 : ℤ).toNat :=
  C1_output_size emptyStore 0 0 0 1 1 (by norm_num) (by norm_num) (by norm_num)

/-- Applying `composite` over a store whose every load yields nothing returns the
all-zero image of the requested size, for any viewport satisfying the §4.3
invariants. -/
theorem composite_absent (store : TileStore) (zoom : ℤ) (v : Viewport) (w h : ℤ)
    (hload : ∀ z x y, load_tile store z x y = none)
    (hcx0 : 0 ≤ v.crop_x) (hcy0 : 0 ≤ v.crop_y)
    (hcx : v.crop_x + w ≤ v.tiles_w * 256) (hcy : v.crop_y + h ≤ v.tiles_h * 256)
    (htw : 1 ≤ v.tiles_w) (hth : 1 ≤ v.tiles_h) :
    composite store zoom v w h =
      Except.ok (List.replicate h.toNat (List.replicate w.toNat zeroPixel)) := by
  have hcond : ¬(v.tiles_w < 0 ∨ v.tiles_h < 0) := by omega
  unfold composite
  rw [if_neg hcond, placeTiles_of_absent _ _ _ _ _ _ _ hload]
  unfold cropImage mkCanvas
  rw [List.drop_replicate, List.take_replicate, List.map_replicate,
    List.drop_replicate, List.take_replicate]
  rw [show h.toNat ⊓ (v.tiles_h.toNat * 256 - v.crop_y.toNat) = h.toNat by omega,
    show w.toNat ⊓ (v.tiles_w.toNat * 256 - v.crop_x.toNat) = w.toNat by omega]

/-- Rendering over a store whose every load yields nothing returns the
all-zero image of exactly the requested size, with no error. -/
theorem render_absent_general (store : TileStore) (lat lon : ℝ) (zoom w h : ℤ)
    (hload : ∀ z x y, load_tile store z x y = none) (hw : 0 < w) (hh : 0 < h) :
    render store lat lon zoom w h =
      Except.ok (List.replicate h.toNat (List.replicate w.toNat zeroPixel)) := by
  obtain ⟨a1, a2, b1, b2, hcx, hcy, tw1, th1⟩ := renderViewport_facts lat lon zoom w h
  exact composite_absent store zoom (renderViewport lat lon zoom w h) w h hload
    a1 b1 hcx hcy (tw1 (by omega)) (th1 (by omega))

/-- Claim C3: when the tile store resolves every address to absence, `render`
returns the all-zero image of exactly the requested size and signals no
error. -/
theorem C3_empty_store_blank_image (store : TileStore) (lat lon : ℝ)
    (zoom w h : ℤ) (hload : ∀ z x y, load_tile store z x y = none)
    (hw : 0 < w) (hh : 0 < h) :
    render store lat lon zoom w h =
      Except.ok (List.replicate h.toNat (List.replicate w.toNat zeroPixel)) :=
  render_absent_general store lat lon zoom w h hload hw hh

/-- Witness for C3 over the empty store at `lat = 0, lon = 0, zoom = 0,
w = h = 1`. -/
theorem C3_empty_store_blank_image_witness :
    render emptyStore 0 0 0 1 1 =
      Except.ok (List.replicate (1 : ℤ).toNat
        (List.replicate (1 : ℤ).toNat zeroPixel)) :=
  C3_empty_store_blank_image emptyStore 0 0 0 1 1 (fun _ _ _ => rfl)
    (by norm_num) (by norm_num)

/-! ### Concrete evaluation of `render` at the origin center

At `lat = 0, lon = 0, zoom = 0` the transform gives fractional tile
coordinates `(1/2, 1/2)`, hence a center pixel position of `(128, 128)`. -/

theorem pyInt_of_nonneg {x : ℝ} (h : 0 ≤ x) : pyInt x = ⌊x⌋ := by
  unfold pyInt
  rw [if_pos h]

theorem latlon_zero : latlon_to_tile_fractional 0 0 0 = (1/2, 1/2) := by
  unfold latlon_to_tile_fractional clampLat radians
  norm_num [min_def, max_def, Real.tan_zero, Real.cos_zero, Real.log_one]

theorem renderViewport_at_origin (w h : ℤ) :
    renderViewport 0 0 0 w h = mkViewport 128 128 w h := by
  unfold renderViewport
  rw [latlon_zero]
  norm_num [TILE_SIZE]

/-- The viewport for a `width = 0, height = 1` request centered at pixel
`(128, 128)`: one tile each way, crop offsets `(128, 128)`. -/
theorem mkViewport_w0_h1 :
    mkViewport 128 128 0 1 = ⟨128, 128, 128, 129, 0, 0, 0, 0, 1, 1, 128, 128⟩ := by
  simp only [mkViewport]
  rw [show ((0 : ℤ).fdiv 2) = 0 from rfl, show ((1 : ℤ).fdiv 2) = 0 from rfl]
  rw [show pyInt ((128 : ℝ) - ((0 : ℤ) : ℝ)) = 128 by
    rw [pyInt_of_nonneg (by norm_num)]; norm_num]
  simp only [Viewport.mk.injEq]
  norm_num [TILE_SIZE]
  decide

/-- Counterexample to C5: at `width = 0` (a non-positive width) `render` does
not reject the call — it runs the full pipeline and returns a zero-column
image with no error signaled. -/
theorem C5_counterexample_width_zero_returns_ok :
    render emptyStore 0 0 0 0 1 = Except.ok [[]] := by
  unfold render
  rw [renderViewport_at_origin, mkViewport_w0_h1]
  unfold composite
  rw [if_neg (by decide)]
  rw [placeTiles_of_absent emptyStore _ _ _ _ _ _ (fun _ _ _ => rfl)]
  unfold cropImage mkCanvas
  rw [List.drop_replicate, List.take_replicate, List.map_replicate,
    List.drop_replicate, List.take_replicate]
  congr 1

/-- C5 as amended: `render` performs no validation of its arguments; for a
negative zoom or non-positive width or height it never signals
`InvalidArgument` (it either completes, or — for a negative tile count — the
canvas allocation itself fails). -/
theorem C5_amended_no_invalid_argument (store : TileStore) (lat lon : ℝ)
    (zoom w h : ℤ) (hbad : zoom < 0 ∨ w ≤ 0 ∨ h ≤ 0) :
    render store lat lon zoom w h ≠ Except.error RenderError.invalidArgument := by
  unfold render composite
  split <;> simp

/-- Witness for the amended C5 at `zoom = -1`. -/
theorem C5_amended_no_invalid_argument_witness :
    render emptyStore 0 0 (-1) 1 1 ≠ Except.error RenderError.invalidArgument :=
  C5_amended_no_invalid_argument emptyStore 0 0 (-1) 1 1 (Or.inl (by norm_num))

/-- Counterexample to C6: over a store in which the tile file at address
`(0, 0, 0)` exists but cannot be decoded, `render` does not signal a
`TileReadError` — it substitutes a blank block and succeeds. -/
theorem C6_counterexample_corrupt_tile_not_error :
    corruptStore.fileExists 0 0 0 = true ∧
    corruptStore.imread 0 0 0 = none ∧
    render corruptStore 0 0 0 1 1 = Except.ok [[zeroPixel]] ∧
    render corruptStore 0 0 0 1 1 ≠ Except.error (RenderError.tileReadError 0 0 0) := by
  have hr : render corruptStore 0 0 0 1 1 = Except.ok [[zeroPixel]] :=
    render_absent_general corruptStore 0 0 0 1 1 (fun _ _ _ => rfl)
      (by norm_num) (by norm_num)
  refine ⟨rfl, rfl, hr, ?_⟩
  rw [hr]
  simp

/-- C6 as amended: a tile whose data fails to decode is indistinguishable
from an absent tile — `_load_tile` yields nothing for it, and `render` over
such a store produces exactly what it produces over the empty store (blank
blocks), with no abort. -/
theorem C6_amended_corrupt_renders_as_absent (store : TileStore) (lat lon : ℝ)
    (zoom w h : ℤ) (hcorrupt : ∀ z x y, store.imread z x y = none) :
    render store lat lon zoom w h = render emptyStore lat lon zoom w h := by
  have hload : ∀ z x y, load_tile store z x y = none := by
    intro z x y
    unfold load_tile
    rw [hcorrupt]
    split <;> rfl
  unfold render composite
  split
  · rfl
  · rw [placeTiles_of_absent store _ _ _ _ _ _ hload,
      placeTiles_of_absent emptyStore _ _ _ _ _ _ (fun _ _ _ => rfl)]

/-- Witness for the amended C6 over the all-corrupt store. -/
theorem C6_amended_corrupt_renders_as_absent_witness :
    render corruptStore 0 0 0 1 1 = render emptyStore 0 0 0 1 1 :=
  C6_amended_corrupt_renders_as_absent corruptStore 0 0 0 1 1 (fun _ _ _ => rfl)

end MapGen
